/-
Verification of the isoflow scene store (src/stores/sceneStore.tsx).

The scene store is the authoritative in-memory model of a 2-D diagram:
five sequences of entities (icons, nodes, connectors, textBoxes,
rectangles) mutated only through a fixed action set.  Each action is
translated here as a pure function from the previous scene to either an
error or the next scene, mirroring the copy-on-write (immer `produce`)
discipline of the source: a failing lookup aborts the whole action
before `set` is called, a succeeding action publishes exactly one new
snapshot.

External collaborators (path routing `getConnectorPath`, text
measurement `getTextWidth`, validation, normalization) are taken as
function parameters.  Helpers of the repository that are not part of
the provided source (`getItemById`, `getAllAnchors`, the
`*InputTo*` converters, the config constants) are modelled from the
spec; each such definition says so in its doc comment.
-/
import Mathlib

set_option maxHeartbeats 1000000

namespace Isoflow

/-- A 2-D coordinate (`{x, y}` in the source's tile space). -/
structure Coords where
  x : Int
  y : Int
deriving DecidableEq, Repr

/-- A width/height pair, the `size` field of sized entities. -/
structure Size where
  width : Int
  height : Int
deriving DecidableEq, Repr

/-- The reference held by a connector anchor: either bound to a node
(`ref.type === 'NODE'` with `ref.id`) or a free-floating coordinate. -/
inductive AnchorRef where
  | node (id : String)
  | tile (coords : Coords)
deriving DecidableEq, Repr

/-- A connector anchor: the source only ever inspects `anchor.ref`. -/
structure Anchor where
  ref : AnchorRef
deriving DecidableEq, Repr

/-- An icon entity; treated as opaque by the store apart from its id. -/
structure Icon where
  id : String
deriving DecidableEq, Repr

/-- A node: a positioned, sized shape with an identity. -/
structure Node where
  id : String
  position : Coords
  size : Size
deriving DecidableEq, Repr

/-- A connector path: the drawn geometry, a sequence of coordinates. -/
def Path : Type := List Coords
deriving DecidableEq, Repr

/-- A connector: an id, its anchors, and the derived `path`. -/
structure Connector where
  id : String
  anchors : List Anchor
  path : Path
deriving DecidableEq, Repr

/-- A text box: id, text, fontSize, position and the derived `size`. -/
structure TextBox where
  id : String
  text : String
  fontSize : Int
  position : Coords
  size : Size
deriving DecidableEq, Repr

/-- A rectangle: a positioned, sized shape with an identity. -/
structure Rectangle where
  id : String
  position : Coords
  size : Size
deriving DecidableEq, Repr

/-- The root aggregate: the five entity sequences of the store state. -/
structure Scene where
  icons : List Icon
  nodes : List Node
  connectors : List Connector
  textBoxes : List TextBox
  rectangles : List Rectangle
deriving DecidableEq, Repr

/-- The scene the store starts from (`initialScene` in the source). -/
def initialScene : Scene :=
  { icons := [], nodes := [], connectors := [], textBoxes := [], rectangles := [] }

/-- The error taxonomy of the engine: `NotFound(kind, id)` for failed
byId lookups and `ValidationError` for a rejected `setScene` input. -/
inductive Err where
  | notFound (kind : String) (id : String)
  | validationError
deriving DecidableEq, Repr

/-- The style record handed to the text-measurement collaborator. -/
structure TextStyle where
  fontSize : Int
  fontFamily : String
  fontWeight : String
deriving DecidableEq, Repr

/-- Modelled from the spec: `DEFAULT_FONT_FAMILY` lives in `src/config`,
which is not part of the provided source; the store passes it verbatim
as the fixed font-family policy, so its value is opaque here. -/
def DEFAULT_FONT_FAMILY : String := "default-font-family"

/-- Modelled from the spec: `TEXTBOX_DEFAULTS.fontWeight` lives in
`src/config`, not part of the provided source; the store passes it
verbatim as the fixed font-weight policy, so its value is opaque here. -/
def TEXTBOX_DEFAULTS_fontWeight : String := "default-font-weight"

/-- Modelled from the spec: `getItemById` from `src/utils` is not part
of the provided source.  Per the spec, each operation "locates the
target entity by id within its sequence — fails with `NotFound` if
absent"; so it finds the first item whose id matches and returns it
together with its index, or nothing. -/
def getItemById (getId : α → String) (xs : List α) (id : String) :
    Option (α × Nat) :=
  match xs with
  | [] => none
  | x :: rest =>
    if getId x = id then some (x, 0)
    else (getItemById getId rest id).map (fun p => (p.1, p.2 + 1))

/-- Modelled from the spec: `getAllAnchors` from `src/utils` is not part
of the provided source; the spec describes it as "the flattened anchor
set of all connectors". -/
def getAllAnchors (connectors : List Connector) : List Anchor :=
  connectors.flatMap (·.anchors)

/-- The test `anchor.ref.type === 'NODE' && anchor.ref.id === id` used
by the cascades of `updateNode` and `deleteNode`. -/
def anchorBoundTo (id : String) (a : Anchor) : Bool :=
  match a.ref with
  | .node nid => nid = id
  | .tile _ => false

/-! ## Partial updates and shallow merges

A TypeScript `updates` object is a record whose keys may each be
present or absent; `{...item, ...updates}` replaces exactly the
present keys.  Each `*Updates` structure below has one `Option` field
per entity field (`none` = key absent), and `merge*` is the spread. -/

/-- Partial update for a node (`Partial<Node>`). -/
structure NodeUpdates where
  id : Option String := none
  position : Option Coords := none
  size : Option Size := none
deriving DecidableEq, Repr

/-- The spread `{...node, ...updates}` in `updateNode`. -/
def mergeNode (n : Node) (u : NodeUpdates) : Node :=
  { id := u.id.getD n.id
    position := u.position.getD n.position
    size := u.size.getD n.size }

/-- Partial update for a connector (`Partial<Connector>`). -/
structure ConnectorUpdates where
  id : Option String := none
  anchors : Option (List Anchor) := none
  path : Option Path := none
deriving DecidableEq, Repr

/-- The spread `{...connector, ...updates}` in `updateConnector`. -/
def mergeConnector (c : Connector) (u : ConnectorUpdates) : Connector :=
  { id := u.id.getD c.id
    anchors := u.anchors.getD c.anchors
    path := u.path.getD c.path }

/-- Partial update for a text box (`Partial<TextBox>`). -/
structure TextBoxUpdates where
  id : Option String := none
  text : Option String := none
  fontSize : Option Int := none
  position : Option Coords := none
  size : Option Size := none
deriving DecidableEq, Repr

/-- The spread `{...textBox, ...updates}` in `updateTextBox`. -/
def mergeTextBox (t : TextBox) (u : TextBoxUpdates) : TextBox :=
  { id := u.id.getD t.id
    text := u.text.getD t.text
    fontSize := u.fontSize.getD t.fontSize
    position := u.position.getD t.position
    size := u.size.getD t.size }

/-- Partial update for a rectangle (`Partial<Rectangle>`). -/
structure RectangleUpdates where
  id : Option String := none
  position : Option Coords := none
  size : Option Size := none
deriving DecidableEq, Repr

/-- The spread `{...rectangle, ...updates}` in `updateRectangle`. -/
def mergeRectangle (r : Rectangle) (u : RectangleUpdates) : Rectangle :=
  { id := u.id.getD r.id
    position := u.position.getD r.position
    size := u.size.getD r.size }

/-! ## Entity inputs and their normalizers

The `create*` actions convert a caller-supplied input into an entity
via converters from `src/utils`, which are not part of the provided
source; they are modelled from the spec. -/

/-- Caller input for `createNode`. -/
structure NodeInput where
  id : String
  position : Coords
  size : Size
deriving DecidableEq, Repr

/-- Modelled from the spec: `nodeInputToNode` from `src/utils` is not
part of the provided source; per the spec it "normalizes input to a
Node (assigns identity/defaults)", keeping the caller-visible fields. -/
def nodeInputToNode (i : NodeInput) : Node :=
  { id := i.id, position := i.position, size := i.size }

/-- Caller input for `createConnector`. -/
structure ConnectorInput where
  id : String
  anchors : List Anchor
deriving DecidableEq, Repr

/-- Modelled from the spec: `connectorInputToConnector` from
`src/utils` is not part of the provided source; per the spec it
"resolves/normalizes anchors against the current node set and current
global anchor set, computes the initial `path`, and appends". -/
def connectorInputToConnector
    (cp : List Anchor → List Node → List Anchor → Path)
    (i : ConnectorInput) (nodes : List Node) (allAnchors : List Anchor) :
    Connector :=
  { id := i.id, anchors := i.anchors, path := cp i.anchors nodes allAnchors }

/-- Caller input for `createTextBox`. -/
structure TextBoxInput where
  id : String
  text : String
  fontSize : Int
  position : Coords
deriving DecidableEq, Repr

/-- Modelled from the spec: `textBoxInputToTextBox` from `src/utils` is
not part of the provided source; per the spec it "normalizes and
appends", and a TextBox carries a derived `size` measured from its
text with the fixed style policy and unit height. -/
def textBoxInputToTextBox (mw : String → TextStyle → Int)
    (i : TextBoxInput) : TextBox :=
  { id := i.id, text := i.text, fontSize := i.fontSize,
    position := i.position,
    size := { width := mw i.text
                { fontSize := i.fontSize
                  fontFamily := DEFAULT_FONT_FAMILY
                  fontWeight := TEXTBOX_DEFAULTS_fontWeight }
              height := 1 } }

/-- Caller input for `createRectangle`. -/
structure RectangleInput where
  id : String
  position : Coords
  size : Size
deriving DecidableEq, Repr

/-- Modelled from the spec: `rectangleInputToRectangle` from
`src/utils` is not part of the provided source; per the spec
`createRectangle` is pure CRUD that appends the normalized shape. -/
def rectangleInputToRectangle (i : RectangleInput) : Rectangle :=
  { id := i.id, position := i.position, size := i.size }

/-! ## The actions

Every action is a function from the previous scene to `Except Err
Scene` (or plain `Scene` for the infallible ones): a thrown
`NotFound`/`ValidationError` escapes `produce` before `set` runs, so
an error leaves the published snapshot untouched. -/

/-- Action `setScene(scene)`: `sceneInput.parse(scene)` throws a
validation error on bad input; otherwise `sceneInputToScene` (the
external normalizer) builds the new scene and `set(newScene)` replaces
all five sequences.  The validator and normalizer are external
collaborators, passed as parameters. -/
def setScene (validate : α → Bool) (normalize : α → Scene)
    (scene : α) : Scene → Except Err Scene := fun _ =>
  if validate scene then .ok (normalize scene)
  else .error .validationError

/-- Caller input of `updateScene`: the three sequences it installs. -/
structure SceneUpdate where
  nodes : List Node
  connectors : List Connector
  rectangles : List Rectangle
deriving DecidableEq, Repr

/-- Action `updateScene(scene)`: `set` with only `nodes`, `connectors`
and `rectangles`, so zustand's shallow state merge keeps `icons` and
`textBoxes` from the previous snapshot. -/
def updateScene (u : SceneUpdate) (s : Scene) : Scene :=
  { s with nodes := u.nodes, connectors := u.connectors,
           rectangles := u.rectangles }

/-- Action `createNode(node)`: push the normalized node, publish
`nodes`. -/
def createNode (i : NodeInput) (s : Scene) : Scene :=
  { s with nodes := s.nodes ++ [nodeInputToNode i] }

/-- The `draftState.connectors.forEach((connector, i) => ...)` loop of
`updateNode`: at index `i`, if the connector has an anchor bound to
`id`, overwrite its `path` with
`getConnectorPath({anchors, nodes, allAnchors: getAllAnchors(draftState.connectors)})`,
where the draft connector list is the one current at that iteration. -/
def updateNodePathLoop (cp : List Anchor → List Node → List Anchor → Path)
    (nodes : List Node) (id : String) (cs : List Connector) (i : Nat) :
    List Connector :=
  if h : i < cs.length then
    let connector := cs.get ⟨i, h⟩
    let cs' :=
      if connector.anchors.any (anchorBoundTo id) then
        cs.set i { connector with
                   path := cp connector.anchors nodes (getAllAnchors cs) }
      else cs
    updateNodePathLoop cp nodes id cs' (i + 1)
  else cs
termination_by cs.length - i
decreasing_by
  split
  · simp only [List.length_set]; omega
  · omega

/-- Action `updateNode(id, updates)`: locate the node (NotFound if
absent), replace it by the shallow merge, then recompute the path of
every connector with an anchor bound to `id` against the updated node
list; publish `nodes` and `connectors`. -/
def updateNode (cp : List Anchor → List Node → List Anchor → Path)
    (id : String) (updates : NodeUpdates) (s : Scene) :
    Except Err Scene :=
  match getItemById (·.id) s.nodes id with
  | none => .error (.notFound "node" id)
  | some (node, index) =>
    let nodes' := s.nodes.set index (mergeNode node updates)
    .ok { s with
          nodes := nodes'
          connectors := updateNodePathLoop cp nodes' id s.connectors 0 }

/-- Action `deleteNode(id)`: locate the node (NotFound if absent),
splice it out, and drop every connector having an anchor bound to
`id`; publish `nodes` and `connectors`. -/
def deleteNode (id : String) (s : Scene) : Except Err Scene :=
  match getItemById (·.id) s.nodes id with
  | none => .error (.notFound "node" id)
  | some (_, index) =>
    .ok { s with
          nodes := s.nodes.eraseIdx index
          connectors := s.connectors.filter
            (fun c => !(c.anchors.any (anchorBoundTo id))) }

/-- Action `createConnector(connector)`: normalize against the current
nodes and the flattened anchors of the current connectors, append,
publish `connectors`. -/
def createConnector (cp : List Anchor → List Node → List Anchor → Path)
    (i : ConnectorInput) (s : Scene) : Scene :=
  { s with connectors := s.connectors ++
      [connectorInputToConnector cp i s.nodes (getAllAnchors s.connectors)] }

/-- Action `updateConnector(id, updates)`: locate the connector
(NotFound if absent) and replace it by the shallow merge; no path
recomputation; publish `connectors`. -/
def updateConnector (id : String) (updates : ConnectorUpdates)
    (s : Scene) : Except Err Scene :=
  match getItemById (·.id) s.connectors id with
  | none => .error (.notFound "connector" id)
  | some (connector, index) =>
    .ok { s with
          connectors := s.connectors.set index
            (mergeConnector connector updates) }

/-- Action `deleteConnector(id)`: locate the connector (NotFound if
absent) and splice it out; publish `connectors`. -/
def deleteConnector (id : String) (s : Scene) : Except Err Scene :=
  match getItemById (·.id) s.connectors id with
  | none => .error (.notFound "connector" id)
  | some (_, index) =>
    .ok { s with connectors := s.connectors.eraseIdx index }

/-- Action `createRectangle(rectangle)`: append the normalized
rectangle; publish `rectangles`. -/
def createRectangle (i : RectangleInput) (s : Scene) : Scene :=
  { s with rectangles := s.rectangles ++ [rectangleInputToRectangle i] }

/-- Action `createTextBox(textBox)`: append the normalized text box;
publish `textBoxes`. -/
def createTextBox (mw : String → TextStyle → Int) (i : TextBoxInput)
    (s : Scene) : Scene :=
  { s with textBoxes := s.textBoxes ++ [textBoxInputToTextBox mw i] }

/-- Action `updateTextBox(id, updates)`: locate the text box (NotFound
if absent); if `updates.text` or `updates.fontSize` is present, first
overwrite the draft's `size` with the measured width of the effective
text under the effective font size (fixed family and weight) and
height 1; then replace the entry by the spread of the (size-updated)
draft with `updates` — in the source, `textBox` aliases the mutated
draft entry, so the spread sees the recomputed `size`. -/
def updateTextBox (mw : String → TextStyle → Int) (id : String)
    (updates : TextBoxUpdates) (s : Scene) : Except Err Scene :=
  match getItemById (·.id) s.textBoxes id with
  | none => .error (.notFound "textBox" id)
  | some (textBox, index) =>
    let draft :=
      if updates.text.isSome || updates.fontSize.isSome then
        { textBox with
          size := { width := mw (updates.text.getD textBox.text)
                      { fontSize := updates.fontSize.getD textBox.fontSize
                        fontFamily := DEFAULT_FONT_FAMILY
                        fontWeight := TEXTBOX_DEFAULTS_fontWeight }
                    height := 1 } }
      else textBox
    .ok { s with textBoxes := s.textBoxes.set index (mergeTextBox draft updates) }

/-- Action `deleteTextBox(id)`: locate the text box (NotFound if
absent) and splice it out; publish `textBoxes`. -/
def deleteTextBox (id : String) (s : Scene) : Except Err Scene :=
  match getItemById (·.id) s.textBoxes id with
  | none => .error (.notFound "textBox" id)
  | some (_, index) =>
    .ok { s with textBoxes := s.textBoxes.eraseIdx index }

/-- Action `updateRectangle(id, updates)`: locate the rectangle
(NotFound if absent) and replace it by the shallow merge; publish
`rectangles`. -/
def updateRectangle (id : String) (updates : RectangleUpdates)
    (s : Scene) : Except Err Scene :=
  match getItemById (·.id) s.rectangles id with
  | none => .error (.notFound "rectangle" id)
  | some (rectangle, index) =>
    .ok { s with
          rectangles := s.rectangles.set index
            (mergeRectangle rectangle updates) }

/-- Action `deleteRectangle(id)`: locate the rectangle (NotFound if
absent) and splice it out; publish `rectangles`. -/
def deleteRectangle (id : String) (s : Scene) : Except Err Scene :=
  match getItemById (·.id) s.rectangles id with
  | none => .error (.notFound "rectangle" id)
  | some (_, index) =>
    .ok { s with rectangles := s.rectangles.eraseIdx index }

/-! ## The store: snapshot publication

The published snapshot is the zustand state; every successful action
calls `set` exactly once, which publishes the new snapshot and
notifies subscribers; a thrown error reaches the caller before `set`,
so the snapshot and the notification count are untouched. -/

/-- One caller invocation of a store action, with its input.
`α` is the type of the raw input accepted by `setScene`. -/
inductive Action (α : Type) where
  | setScene (raw : α)
  | updateScene (u : SceneUpdate)
  | createNode (i : NodeInput)
  | updateNode (id : String) (u : NodeUpdates)
  | deleteNode (id : String)
  | createConnector (i : ConnectorInput)
  | updateConnector (id : String) (u : ConnectorUpdates)
  | deleteConnector (id : String)
  | createRectangle (i : RectangleInput)
  | createTextBox (i : TextBoxInput)
  | updateTextBox (id : String) (u : TextBoxUpdates)
  | deleteTextBox (id : String)
  | updateRectangle (id : String) (u : RectangleUpdates)
  | deleteRectangle (id : String)

/-- Dispatch an action to its definition.  `cp` is the routing
collaborator `getConnectorPath`, `mw` the text-measurement
collaborator `getTextWidth`, `validate`/`normalize` the external
schema validator and normalizer used by `setScene`. -/
def applyAction (cp : List Anchor → List Node → List Anchor → Path)
    (mw : String → TextStyle → Int)
    (validate : α → Bool) (normalize : α → Scene) :
    Action α → Scene → Except Err Scene
  | .setScene raw, s => setScene validate normalize raw s
  | .updateScene u, s => .ok (updateScene u s)
  | .createNode i, s => .ok (createNode i s)
  | .updateNode id u, s => updateNode cp id u s
  | .deleteNode id, s => deleteNode id s
  | .createConnector i, s => .ok (createConnector cp i s)
  | .updateConnector id u, s => updateConnector id u s
  | .deleteConnector id, s => deleteConnector id s
  | .createRectangle i, s => .ok (createRectangle i s)
  | .createTextBox i, s => .ok (createTextBox mw i s)
  | .updateTextBox id u, s => updateTextBox mw id u s
  | .deleteTextBox id, s => deleteTextBox id s
  | .updateRectangle id u, s => updateRectangle id u s
  | .deleteRectangle id, s => deleteRectangle id s

/-- The observable store: the published snapshot plus how many times
`set` has run (each `set` is one publication that notifies the
subscribers whose selection changed). -/
structure Store where
  scene : Scene
  publishCount : Nat
deriving DecidableEq, Repr

/-- The store of a fresh provider: `initialScene`, nothing published. -/
def initialStore : Store := { scene := initialScene, publishCount := 0 }

/-- Run one action against the store: on success the new snapshot is
published (one `set`), on error the store is untouched and the error
is surfaced to the caller. -/
def runAction (cp : List Anchor → List Node → List Anchor → Path)
    (mw : String → TextStyle → Int)
    (validate : α → Bool) (normalize : α → Scene)
    (a : Action α) (st : Store) : Store :=
  match applyAction cp mw validate normalize a st.scene with
  | .ok s' => { scene := s', publishCount := st.publishCount + 1 }
  | .error _ => st

/-- Run a sequence of caller invocations left to right. -/
def runActions (cp : List Anchor → List Node → List Anchor → Path)
    (mw : String → TextStyle → Int)
    (validate : α → Bool) (normalize : α → Scene)
    (as : List (Action α)) (st : Store) : Store :=
  as.foldl (fun st a => runAction cp mw validate normalize a st) st

/-! ## Invariants -/

/-- Per-sequence id uniqueness: no two entities of the same sequence
share an id (spec §3 invariant). -/
def uniqueIds (s : Scene) : Prop :=
  (s.icons.map (·.id)).Nodup ∧ (s.nodes.map (·.id)).Nodup ∧
  (s.connectors.map (·.id)).Nodup ∧ (s.textBoxes.map (·.id)).Nodup ∧
  (s.rectangles.map (·.id)).Nodup

instance (s : Scene) : Decidable (uniqueIds s) := by
  unfold uniqueIds; infer_instance

/-- An anchor reference resolves against a node list when, if it is
node-bound, the referenced id is present among the nodes' ids. -/
def refResolves (nodes : List Node) : AnchorRef → Prop
  | .node nid => nid ∈ nodes.map (·.id)
  | .tile _ => True

instance (nodes : List Node) (r : AnchorRef) :
    Decidable (refResolves nodes r) := by
  cases r <;> simp only [refResolves] <;> infer_instance

/-- Referential integrity: every node-bound anchor of every connector
references an id present in the node sequence. -/
def noDanglingRefs (s : Scene) : Prop :=
  ∀ c ∈ s.connectors, ∀ a ∈ c.anchors, refResolves s.nodes a.ref

instance (s : Scene) : Decidable (noDanglingRefs s) := by
  unfold noDanglingRefs; infer_instance

/-! ## Helper lemmas about the modelled lookup -/

theorem getItemById_eq_none_iff (getId : α → String) (xs : List α)
    (id : String) :
    getItemById getId xs id = none ↔ ∀ a ∈ xs, getId a ≠ id := by
  induction xs with
  | nil => simp [getItemById]
  | cons x rest ih =>
    by_cases h : getId x = id
    · simp [getItemById, h]
    · simp [getItemById, h, Option.map_eq_none', ih]

theorem getItemById_eq_some (getId : α → String) (xs : List α)
    (id : String) (a : α) (i : Nat)
    (h : getItemById getId xs id = some (a, i)) :
    xs[i]? = some a ∧ getId a = id := by
  induction xs generalizing a i with
  | nil => simp [getItemById] at h
  | cons x rest ih =>
    by_cases hx : getId x = id
    · simp only [getItemById, if_pos hx, Option.some.injEq, Prod.mk.injEq] at h
      obtain ⟨rfl, rfl⟩ := h
      exact ⟨by simp, hx⟩
    · simp only [getItemById, if_neg hx, Option.map_eq_some',
        Prod.mk.injEq] at h
      obtain ⟨⟨b, j⟩, hb, hba, hji⟩ := h
      subst hba
      subst hji
      obtain ⟨h1, h2⟩ := ih b j hb
      exact ⟨by simpa using h1, h2⟩

theorem getItemById_of_mem (getId : α → String) (xs : List α) (id : String)
    (h : id ∈ xs.map getId) :
    ∃ a i, getItemById getId xs id = some (a, i) := by
  cases hg : getItemById getId xs id with
  | none =>
    rw [getItemById_eq_none_iff] at hg
    obtain ⟨a, ha, rfl⟩ := List.mem_map.mp h
    exact absurd rfl (hg a ha)
  | some p => exact ⟨p.1, p.2, by simp⟩

/-! ## Helper lemmas about the path-recompute loop -/

theorem getAllAnchors_set (cs : List Connector) (i : Nat) (c c' : Connector)
    (hc : cs[i]? = some c) (ha : c'.anchors = c.anchors) :
    getAllAnchors (cs.set i c') = getAllAnchors cs := by
  induction cs generalizing i with
  | nil => simp at hc
  | cons x rest ih =>
    cases i with
    | zero =>
      simp only [List.getElem?_cons_zero, Option.some.injEq] at hc
      subst hc
      simp [getAllAnchors, ha]
    | succ n =>
      simp only [List.getElem?_cons_succ] at hc
      simp [getAllAnchors, List.flatMap_cons] at ih ⊢
      exact ih n hc

theorem updateNodePathLoop_spec
    (cp : List Anchor → List Node → List Anchor → Path)
    (nodes : List Node) (id : String) :
    ∀ (k : Nat) (cs : List Connector) (i : Nat), cs.length - i ≤ k →
      (updateNodePathLoop cp nodes id cs i).length = cs.length ∧
      ∀ j : Nat, (updateNodePathLoop cp nodes id cs i)[j]? =
        if j < i then cs[j]?
        else (cs[j]?).map (fun c =>
          if c.anchors.any (anchorBoundTo id) then
            { c with path := cp c.anchors nodes (getAllAnchors cs) }
          else c) := by
  intro k
  induction k with
  | zero =>
    intro cs i hk
    have hlen : cs.length ≤ i := by omega
    rw [updateNodePathLoop, dif_neg (by omega)]
    refine ⟨rfl, fun j => ?_⟩
    by_cases hj : j < i
    · simp [hj]
    · rw [if_neg hj, List.getElem?_eq_none (by omega)]
      rfl
  | succ k ih =>
    intro cs i hk
    by_cases h : i < cs.length
    · rw [updateNodePathLoop, dif_pos h]
      dsimp only
      set c := cs.get ⟨i, h⟩ with hc
      have hcs : cs[i]? = some c := by
        simp [hc]
      by_cases hb : c.anchors.any (anchorBoundTo id)
      · rw [if_pos hb]
        set c' : Connector :=
          { c with path := cp c.anchors nodes (getAllAnchors cs) } with hc'
        have hlen' : (cs.set i c').length = cs.length := by
          simp
        have hAA : getAllAnchors (cs.set i c') = getAllAnchors cs :=
          getAllAnchors_set cs i c c' hcs rfl
        obtain ⟨ihlen, ihel⟩ := ih (cs.set i c') (i + 1) (by omega)
        refine ⟨by rw [ihlen, hlen'], fun j => ?_⟩
        rw [ihel j]
        rcases Nat.lt_trichotomy j i with hj | hj | hj
        · rw [if_pos (by omega), if_pos hj,
            List.getElem?_set_ne (by omega)]
        · subst hj
          rw [if_pos (by omega), if_neg (by omega),
            List.getElem?_set_self h, hcs]
          simp only [Option.map_some']
          rw [if_pos hb]
        · rw [if_neg (by omega), if_neg (by omega),
            List.getElem?_set_ne (by omega), hAA]
      · rw [if_neg hb]
        obtain ⟨ihlen, ihel⟩ := ih cs (i + 1) (by omega)
        refine ⟨ihlen, fun j => ?_⟩
        rw [ihel j]
        rcases Nat.lt_trichotomy j i with hj | hj | hj
        · rw [if_pos (by omega), if_pos hj]
        · subst hj
          rw [if_pos (by omega), if_neg (by omega), hcs]
          simp only [Option.map_some']
          rw [if_neg hb]
        · rw [if_neg (by omega), if_neg (by omega)]
    · rw [updateNodePathLoop, dif_neg h]
      refine ⟨rfl, fun j => ?_⟩
      by_cases hj : j < i
      · simp [hj]
      · rw [if_neg hj, List.getElem?_eq_none (by omega)]
        rfl

theorem getItemById_eq_none_of_not_mem (getId : α → String) (xs : List α)
    (id : String) (h : id ∉ xs.map getId) :
    getItemById getId xs id = none :=
  (getItemById_eq_none_iff getId xs id).mpr
    (fun a ha he => h (List.mem_map.mpr ⟨a, ha, he⟩))

/-! ## Concrete fixtures used by the witness theorems -/

/-- A concrete routing collaborator: one-point path that depends on
all three arguments. -/
def cpW : List Anchor → List Node → List Anchor → Path :=
  fun anchors nodes allAnchors =>
    [⟨Int.ofNat anchors.length, Int.ofNat (nodes.length + allAnchors.length)⟩]

/-- A concrete text-measurement collaborator depending on text and
font size. -/
def mwW : String → TextStyle → Int :=
  fun t style => Int.ofNat t.length + style.fontSize

/-- A concrete validator accepting every raw input. -/
def validateW : Unit → Bool := fun _ => true

/-- A concrete validator rejecting every raw input. -/
def validateRejectW : Unit → Bool := fun _ => false

/-- A concrete normalizer producing a one-node scene. -/
def normalizeW : Unit → Scene :=
  fun _ => { icons := [], nodes := [{ id := "n9", position := ⟨9, 9⟩, size := ⟨1, 1⟩ }],
             connectors := [], textBoxes := [], rectangles := [] }

def nodeA : Node := { id := "n1", position := ⟨0, 0⟩, size := ⟨1, 1⟩ }

def nodeB : Node := { id := "n2", position := ⟨3, 4⟩, size := ⟨1, 1⟩ }

def connA : Connector :=
  { id := "c1", anchors := [⟨.node "n1"⟩, ⟨.node "n2"⟩], path := [] }

def connB : Connector :=
  { id := "c2", anchors := [⟨.tile ⟨7, 7⟩⟩, ⟨.node "n2"⟩], path := [] }

def tbA : TextBox :=
  { id := "t1", text := "hello", fontSize := 12, position := ⟨2, 2⟩,
    size := ⟨5, 1⟩ }

def rectA : Rectangle := { id := "r1", position := ⟨0, 0⟩, size := ⟨2, 2⟩ }

/-- A concrete scene exercising every sequence. -/
def sceneW : Scene :=
  { icons := [⟨"i1"⟩], nodes := [nodeA, nodeB],
    connectors := [connA, connB], textBoxes := [tbA], rectangles := [rectA] }

/-! ## The claims -/

/-- C9: `updateScene(partial)` leaves `textBoxes` and `icons`
unchanged, replaces exactly `nodes`, `connectors` and `rectangles`
with the caller-supplied values, and touches nothing else. -/
theorem updateScene_replaces_three_keeps_two (s : Scene) (u : SceneUpdate) :
    (updateScene u s).textBoxes = s.textBoxes ∧
    (updateScene u s).icons = s.icons ∧
    (updateScene u s).nodes = u.nodes ∧
    (updateScene u s).connectors = u.connectors ∧
    (updateScene u s).rectangles = u.rectangles :=
  ⟨rfl, rfl, rfl, rfl, rfl⟩

/-- C7: for an existing connector id, `updateConnector(id, updates)`
replaces the connector by the shallow merge of the old connector with
`updates` and performs no path recomputation: the resulting path is
`updates.path` when present and the old path otherwise; every other
connector and every other sequence is unchanged. -/
theorem updateConnector_shallow_merge_no_recompute (id : String)
    (u : ConnectorUpdates) (s : Scene)
    (h : id ∈ s.connectors.map (·.id)) :
    ∃ c i, getItemById (·.id) s.connectors id = some (c, i) ∧ c.id = id ∧
      ∃ s', updateConnector id u s = .ok s' ∧
        s'.connectors = s.connectors.set i (mergeConnector c u) ∧
        s'.connectors[i]? = some (mergeConnector c u) ∧
        (mergeConnector c u).path = u.path.getD c.path ∧
        (∀ j, j ≠ i → s'.connectors[j]? = s.connectors[j]?) ∧
        s'.icons = s.icons ∧ s'.nodes = s.nodes ∧
        s'.textBoxes = s.textBoxes ∧ s'.rectangles = s.rectangles := by
  obtain ⟨c, i, hget⟩ := getItemById_of_mem (·.id) s.connectors id h
  obtain ⟨hci, hcid⟩ := getItemById_eq_some (·.id) s.connectors id c i hget
  have hilen : i < s.connectors.length := by
    rcases List.getElem?_eq_some_iff.mp hci with ⟨hl, _⟩
    exact hl
  refine ⟨c, i, hget, hcid, ?_⟩
  unfold updateConnector
  rw [hget]
  exact ⟨_, rfl, rfl, List.getElem?_set_self hilen, rfl,
    fun j hj => List.getElem?_set_ne (fun he => hj he.symm), rfl, rfl, rfl, rfl⟩

/-- Witness for C7 at a concrete scene and connector id. -/
theorem updateConnector_shallow_merge_no_recompute_witness :
    ∃ s', updateConnector "c1" { path := some [⟨5, 5⟩] } sceneW = .ok s' := by
  obtain ⟨c, i, -, -, s', hok, -⟩ :=
    updateConnector_shallow_merge_no_recompute "c1"
      { path := some [⟨5, 5⟩] } sceneW (by decide)
  exact ⟨s', hok⟩

/-- C4: `setScene(raw)` either fails with `ValidationError` when the
external validator rejects `raw`, leaving the published scene and the
publication count unchanged, or, when validation succeeds, publishes
exactly `normalize raw`: all five sequences of the published scene
come from the normalized input, none merged with the previous scene. -/
theorem setScene_validates_then_replaces_wholesale
    (cp : List Anchor → List Node → List Anchor → Path)
    (mw : String → TextStyle → Int)
    (validate : α → Bool) (normalize : α → Scene) (raw : α) (st : Store) :
    (validate raw = false →
      setScene validate normalize raw st.scene = .error .validationError ∧
      runAction cp mw validate normalize (.setScene raw) st = st) ∧
    (validate raw = true →
      setScene validate normalize raw st.scene = .ok (normalize raw) ∧
      runAction cp mw validate normalize (.setScene raw) st =
        { scene := normalize raw, publishCount := st.publishCount + 1 }) := by
  constructor
  · intro hv
    have h1 : setScene validate normalize raw st.scene =
        .error .validationError := by
      unfold setScene
      rw [hv]
      simp
    exact ⟨h1, by simp only [runAction, applyAction, h1]⟩
  · intro hv
    have h1 : setScene validate normalize raw st.scene =
        .ok (normalize raw) := by
      unfold setScene
      rw [hv]
      simp
    exact ⟨h1, by simp only [runAction, applyAction, h1]⟩

/-- Witness for C4: a rejected raw leaves the initial store untouched,
an accepted one installs the normalized scene. -/
theorem setScene_validates_then_replaces_wholesale_witness :
    runAction cpW mwW validateRejectW normalizeW (.setScene ()) initialStore
      = initialStore ∧
    runAction cpW mwW validateW normalizeW (.setScene ()) initialStore
      = { scene := normalizeW (), publishCount := 1 } :=
  ⟨(setScene_validates_then_replaces_wholesale cpW mwW validateRejectW
      normalizeW () initialStore).1 (by decide) |>.2,
   (setScene_validates_then_replaces_wholesale cpW mwW validateW
      normalizeW () initialStore).2 (by decide) |>.2⟩

/-- C3: every id-addressed action invoked with an id absent from its
own target sequence (only that sequence matters — the same id may
legally exist in another sequence) fails with `NotFound(kind, id)`,
the published scene is exactly the scene from before the call, and no
subscriber is notified (the publication count is unchanged). -/
theorem byId_actions_notFound_abort
    (cp : List Anchor → List Node → List Anchor → Path)
    (mw : String → TextStyle → Int)
    (validate : α → Bool) (normalize : α → Scene)
    (st : Store) (id : String) (un : NodeUpdates) (uc : ConnectorUpdates)
    (ur : RectangleUpdates) (ut : TextBoxUpdates) :
    (id ∉ st.scene.nodes.map (·.id) →
      updateNode cp id un st.scene = .error (.notFound "node" id) ∧
      runAction cp mw validate normalize (.updateNode id un) st = st) ∧
    (id ∉ st.scene.nodes.map (·.id) →
      deleteNode id st.scene = .error (.notFound "node" id) ∧
      runAction cp mw validate normalize (.deleteNode id) st = st) ∧
    (id ∉ st.scene.connectors.map (·.id) →
      updateConnector id uc st.scene = .error (.notFound "connector" id) ∧
      runAction cp mw validate normalize (.updateConnector id uc) st = st) ∧
    (id ∉ st.scene.connectors.map (·.id) →
      deleteConnector id st.scene = .error (.notFound "connector" id) ∧
      runAction cp mw validate normalize (.deleteConnector id) st = st) ∧
    (id ∉ st.scene.rectangles.map (·.id) →
      updateRectangle id ur st.scene = .error (.notFound "rectangle" id) ∧
      runAction cp mw validate normalize (.updateRectangle id ur) st = st) ∧
    (id ∉ st.scene.rectangles.map (·.id) →
      deleteRectangle id st.scene = .error (.notFound "rectangle" id) ∧
      runAction cp mw validate normalize (.deleteRectangle id) st = st) ∧
    (id ∉ st.scene.textBoxes.map (·.id) →
      updateTextBox mw id ut st.scene = .error (.notFound "textBox" id) ∧
      runAction cp mw validate normalize (.updateTextBox id ut) st = st) ∧
    (id ∉ st.scene.textBoxes.map (·.id) →
      deleteTextBox id st.scene = .error (.notFound "textBox" id) ∧
      runAction cp mw validate normalize (.deleteTextBox id) st = st) := by
  refine ⟨?_, ?_, ?_, ?_, ?_, ?_, ?_, ?_⟩
  · intro h
    have hN := getItemById_eq_none_of_not_mem (·.id) st.scene.nodes id h
    have e : updateNode cp id un st.scene =
        .error (.notFound "node" id) := by
      unfold updateNode; rw [hN]
    exact ⟨e, by simp only [runAction, applyAction, e]⟩
  · intro h
    have hN := getItemById_eq_none_of_not_mem (·.id) st.scene.nodes id h
    have e : deleteNode id st.scene = .error (.notFound "node" id) := by
      unfold deleteNode; rw [hN]
    exact ⟨e, by simp only [runAction, applyAction, e]⟩
  · intro h
    have hN := getItemById_eq_none_of_not_mem (·.id) st.scene.connectors id h
    have e : updateConnector id uc st.scene =
        .error (.notFound "connector" id) := by
      unfold updateConnector; rw [hN]
    exact ⟨e, by simp only [runAction, applyAction, e]⟩
  · intro h
    have hN := getItemById_eq_none_of_not_mem (·.id) st.scene.connectors id h
    have e : deleteConnector id st.scene =
        .error (.notFound "connector" id) := by
      unfold deleteConnector; rw [hN]
    exact ⟨e, by simp only [runAction, applyAction, e]⟩
  · intro h
    have hN := getItemById_eq_none_of_not_mem (·.id) st.scene.rectangles id h
    have e : updateRectangle id ur st.scene =
        .error (.notFound "rectangle" id) := by
      unfold updateRectangle; rw [hN]
    exact ⟨e, by simp only [runAction, applyAction, e]⟩
  · intro h
    have hN := getItemById_eq_none_of_not_mem (·.id) st.scene.rectangles id h
    have e : deleteRectangle id st.scene =
        .error (.notFound "rectangle" id) := by
      unfold deleteRectangle; rw [hN]
    exact ⟨e, by simp only [runAction, applyAction, e]⟩
  · intro h
    have hN := getItemById_eq_none_of_not_mem (·.id) st.scene.textBoxes id h
    have e : updateTextBox mw id ut st.scene =
        .error (.notFound "textBox" id) := by
      unfold updateTextBox; rw [hN]
    exact ⟨e, by simp only [runAction, applyAction, e]⟩
  · intro h
    have hN := getItemById_eq_none_of_not_mem (·.id) st.scene.textBoxes id h
    have e : deleteTextBox id st.scene =
        .error (.notFound "textBox" id) := by
      unfold deleteTextBox; rw [hN]
    exact ⟨e, by simp only [runAction, applyAction, e]⟩

/-- Witness for C3 at the concrete scene, including the cross-sequence
cases: id n1 exists as a node but names no connector, id c1 exists as
a connector but names no node; both invocations abort untouched. -/
theorem byId_actions_notFound_abort_witness :
    runAction cpW mwW validateW normalizeW
      (.updateConnector "n1" {})
      { scene := sceneW, publishCount := 0 }
      = { scene := sceneW, publishCount := 0 } ∧
    runAction cpW mwW validateW normalizeW
      (.deleteNode "c1")
      { scene := sceneW, publishCount := 0 }
      = { scene := sceneW, publishCount := 0 } :=
  ⟨((byId_actions_notFound_abort cpW mwW validateW normalizeW
      { scene := sceneW, publishCount := 0 } "n1" {} {} {} {}).2.2.1
      (by decide)).2,
   ((byId_actions_notFound_abort cpW mwW validateW normalizeW
      { scene := sceneW, publishCount := 0 } "c1" {} {} {} {}).2.1
      (by decide)).2⟩

/-- C1: for an existing node id, `deleteNode(id)` removes that node
and removes every connector that has at least one anchor bound to the
node; consequently a scene with no dangling node references before the
call has none afterwards. -/
theorem deleteNode_cascades (id : String) (s : Scene)
    (hmem : id ∈ s.nodes.map (·.id))
    (hnd : (s.nodes.map (·.id)).Nodup)
    (href : noDanglingRefs s) :
    ∃ s', deleteNode id s = .ok s' ∧
      (∀ n ∈ s'.nodes, n.id ≠ id) ∧
      s'.nodes.length + 1 = s.nodes.length ∧
      (∀ n ∈ s.nodes, n.id ≠ id → n ∈ s'.nodes) ∧
      s'.connectors = s.connectors.filter
        (fun c => !(c.anchors.any (anchorBoundTo id))) ∧
      (∀ c ∈ s'.connectors, ∀ a ∈ c.anchors, anchorBoundTo id a = false) ∧
      noDanglingRefs s' ∧
      s'.icons = s.icons ∧ s'.textBoxes = s.textBoxes ∧
      s'.rectangles = s.rectangles := by
  obtain ⟨a, i, hget⟩ := getItemById_of_mem (·.id) s.nodes id hmem
  obtain ⟨hai, haid⟩ := getItemById_eq_some (·.id) s.nodes id a i hget
  have hilen : i < s.nodes.length := (List.getElem?_eq_some_iff.mp hai).1
  unfold deleteNode
  rw [hget]
  have hclean : ∀ c ∈ s.connectors.filter
      (fun c => !(c.anchors.any (anchorBoundTo id))),
      ∀ aa ∈ c.anchors, anchorBoundTo id aa = false := by
    intro c hcf aa haa
    have hp := List.mem_filter.mp hcf
    have h2 : c.anchors.any (anchorBoundTo id) = false := by
      simpa using hp.2
    simpa using (List.any_eq_false.mp h2) aa haa
  have hkeep : ∀ n ∈ s.nodes, n.id ≠ id → n ∈ s.nodes.eraseIdx i := by
    intro n hn hne
    obtain ⟨j, hj⟩ := List.mem_iff_getElem?.mp hn
    have hji : j ≠ i := by
      intro he
      subst he
      rw [hai] at hj
      cases hj
      exact hne haid
    exact List.mem_eraseIdx_iff_getElem?.mpr ⟨j, hji, hj⟩
  refine ⟨_, rfl, ?_, ?_, hkeep, rfl, hclean, ?_, rfl, rfl, rfl⟩
  · intro n hn hnid
    obtain ⟨j, hji, hj⟩ := List.mem_eraseIdx_iff_getElem?.mp hn
    have hjlen : j < s.nodes.length := (List.getElem?_eq_some_iff.mp hj).1
    have hmj : (s.nodes.map (·.id))[j]? = some id := by
      rw [List.getElem?_map, hj]
      simp [hnid]
    have hmi : (s.nodes.map (·.id))[i]? = some id := by
      rw [List.getElem?_map, hai]
      simp [haid]
    exact hji (List.getElem?_inj (by simpa using hjlen) hnd
      (hmj.trans hmi.symm))
  · show (s.nodes.eraseIdx i).length + 1 = s.nodes.length
    rw [List.length_eraseIdx_of_lt hilen]
    omega
  · intro c hcf aa haa
    have hcs : c ∈ s.connectors := (List.mem_filter.mp hcf).1
    have hfalse : anchorBoundTo id aa = false := hclean c hcf aa haa
    have hres := href c hcs aa haa
    cases haaref : aa.ref with
    | tile coords => simp [refResolves, haaref]
    | node nid =>
      have hne : nid ≠ id := by
        intro he
        rw [anchorBoundTo, haaref] at hfalse
        simp [he] at hfalse
      rw [haaref] at hres
      simp only [refResolves] at hres ⊢
      obtain ⟨n0, hn0, hn0id⟩ := List.mem_map.mp hres
      exact List.mem_map.mpr
        ⟨n0, hkeep n0 hn0 (by rw [hn0id]; exact hne), hn0id⟩

/-- Witness for C1 at the concrete scene: deleting node n1 drops the
connector bound to it. -/
theorem deleteNode_cascades_witness :
    ∃ s', deleteNode "n1" sceneW = .ok s' := by
  obtain ⟨s', hok, -⟩ :=
    deleteNode_cascades "n1" sceneW (by decide) (by decide) (by decide)
  exact ⟨s', hok⟩

/-- The path-recompute loop of `updateNode` started at index 0 acts as
an independent map: only the `path` of connectors with an anchor bound
to `id` changes, computed against the flattened anchors of the
original connector list (which the loop itself never alters). -/
theorem updateNodePathLoop_eq_map
    (cp : List Anchor → List Node → List Anchor → Path)
    (nodes : List Node) (id : String) (cs : List Connector) :
    updateNodePathLoop cp nodes id cs 0 = cs.map (fun c =>
      if c.anchors.any (anchorBoundTo id) then
        { c with path := cp c.anchors nodes (getAllAnchors cs) }
      else c) := by
  obtain ⟨hlen, hel⟩ :=
    updateNodePathLoop_spec cp nodes id cs.length cs 0 (by omega)
  apply List.ext_getElem?
  intro j
  rw [hel j, if_neg (Nat.not_lt_zero j), List.getElem?_map]

theorem getAllAnchors_map_of_anchors_eq (f : Connector → Connector)
    (hf : ∀ c, (f c).anchors = c.anchors) (cs : List Connector) :
    getAllAnchors (cs.map f) = getAllAnchors cs := by
  induction cs with
  | nil => rfl
  | cons x rest ih =>
    simp only [getAllAnchors, List.map_cons, List.flatMap_cons] at ih ⊢
    rw [hf x, ih]

/-- C2: for an existing node id, `updateNode(id, updates)` merges the
node and recomputes the path of exactly the connectors having an
anchor bound to the id, as `computePath(anchors, updatedNodes,
allAnchors)` with the flattened anchors of all connectors; connectors
without such an anchor are untouched. -/
theorem updateNode_recomputes_bound_paths
    (cp : List Anchor → List Node → List Anchor → Path)
    (id : String) (u : NodeUpdates) (s : Scene)
    (hmem : id ∈ s.nodes.map (·.id)) :
    ∃ node i, getItemById (·.id) s.nodes id = some (node, i) ∧
      ∃ s', updateNode cp id u s = .ok s' ∧
        s'.nodes = s.nodes.set i (mergeNode node u) ∧
        getAllAnchors s'.connectors = getAllAnchors s.connectors ∧
        s'.connectors.length = s.connectors.length ∧
        (∀ (j : Nat) (c : Connector), s.connectors[j]? = some c →
          c.anchors.any (anchorBoundTo id) = true →
          s'.connectors[j]? =
            some { c with path := cp c.anchors s'.nodes (getAllAnchors s'.connectors) }) ∧
        (∀ (j : Nat) (c : Connector), s.connectors[j]? = some c →
          c.anchors.any (anchorBoundTo id) = false →
          s'.connectors[j]? = some c) ∧
        s'.icons = s.icons ∧ s'.textBoxes = s.textBoxes ∧
        s'.rectangles = s.rectangles := by
  obtain ⟨node, i, hget⟩ := getItemById_of_mem (·.id) s.nodes id hmem
  refine ⟨node, i, hget, ?_⟩
  unfold updateNode
  rw [hget]
  set nodes' := s.nodes.set i (mergeNode node u) with hnodes
  set f : Connector → Connector := fun c =>
    if c.anchors.any (anchorBoundTo id) then
      { c with path := cp c.anchors nodes' (getAllAnchors s.connectors) }
    else c with hf
  have hfanch : ∀ c, (f c).anchors = c.anchors := by
    intro c
    rw [hf]
    by_cases hb : c.anchors.any (anchorBoundTo id) <;> simp [hb]
  have hmap : updateNodePathLoop cp nodes' id s.connectors 0 =
      s.connectors.map f := updateNodePathLoop_eq_map cp nodes' id s.connectors
  have hAA : getAllAnchors (s.connectors.map f) = getAllAnchors s.connectors :=
    getAllAnchors_map_of_anchors_eq f hfanch s.connectors
  refine ⟨_, rfl, rfl, ?_, ?_, ?_, ?_, rfl, rfl, rfl⟩
  · show getAllAnchors (updateNodePathLoop cp nodes' id s.connectors 0) =
      getAllAnchors s.connectors
    rw [hmap, hAA]
  · show (updateNodePathLoop cp nodes' id s.connectors 0).length =
      s.connectors.length
    rw [hmap, List.length_map]
  · intro j c hjc hb
    show (updateNodePathLoop cp nodes' id s.connectors 0)[j]? = _
    rw [hmap, List.getElem?_map, hjc]
    show some (f c) = _
    rw [hf]
    simp only [hb, if_true]
    rw [← hf, hAA, ← hnodes]
  · intro j c hjc hb
    show (updateNodePathLoop cp nodes' id s.connectors 0)[j]? = _
    rw [hmap, List.getElem?_map, hjc]
    show some (f c) = _
    rw [hf]
    simp only [hb]
    rfl

/-- Witness for C2 at the concrete scene: moving node n1 succeeds. -/
theorem updateNode_recomputes_bound_paths_witness :
    ∃ s', updateNode cpW "n1" { position := some ⟨6, 6⟩ } sceneW
      = .ok s' := by
  obtain ⟨node, i, -, s', hok, -⟩ :=
    updateNode_recomputes_bound_paths cpW "n1"
      { position := some ⟨6, 6⟩ } sceneW (by decide)
  exact ⟨s', hok⟩

/-- C5: for an existing textBox id, when `updates` touches `text` or
`fontSize` and carries no `size`, `updateTextBox(id, updates)` leaves
the published textBox with `size.width` measured from the effective
text and effective font size under the fixed family/weight policy and
`size.height = 1`; the recomputed size survives the shallow merge. -/
theorem updateTextBox_recomputes_size
    (mw : String → TextStyle → Int) (id : String) (u : TextBoxUpdates)
    (s : Scene)
    (hmem : id ∈ s.textBoxes.map (·.id))
    (hsize : u.size = none)
    (htouch : u.text.isSome = true ∨ u.fontSize.isSome = true) :
    ∃ tb i, getItemById (·.id) s.textBoxes id = some (tb, i) ∧
      ∃ s', updateTextBox mw id u s = .ok s' ∧
        ∃ tb', s'.textBoxes[i]? = some tb' ∧
          tb'.size.width = mw (u.text.getD tb.text)
            { fontSize := u.fontSize.getD tb.fontSize,
              fontFamily := DEFAULT_FONT_FAMILY,
              fontWeight := TEXTBOX_DEFAULTS_fontWeight } ∧
          tb'.size.height = 1 ∧
          tb'.text = u.text.getD tb.text ∧
          tb'.fontSize = u.fontSize.getD tb.fontSize ∧
          (∀ (j : Nat), j ≠ i → s'.textBoxes[j]? = s.textBoxes[j]?) ∧
          s'.icons = s.icons ∧ s'.nodes = s.nodes ∧
          s'.connectors = s.connectors ∧ s'.rectangles = s.rectangles := by
  obtain ⟨tb, i, hget⟩ := getItemById_of_mem (·.id) s.textBoxes id hmem
  obtain ⟨hti, htid⟩ := getItemById_eq_some (·.id) s.textBoxes id tb i hget
  have hilen : i < s.textBoxes.length := (List.getElem?_eq_some_iff.mp hti).1
  have hcond : (u.text.isSome || u.fontSize.isSome) = true := by
    rcases htouch with h | h <;> simp [h]
  have hexp : updateTextBox mw id u s = .ok { s with
      textBoxes := s.textBoxes.set i (mergeTextBox { tb with
        size := ⟨mw (u.text.getD tb.text)
          ⟨u.fontSize.getD tb.fontSize, DEFAULT_FONT_FAMILY,
            TEXTBOX_DEFAULTS_fontWeight⟩, 1⟩ } u) } := by
    unfold updateTextBox
    rw [hget]
    dsimp only
    rw [if_pos hcond]
  refine ⟨tb, i, hget, _, hexp, _,
    List.getElem?_set_self hilen, ?_, ?_, ?_, ?_,
    fun j hj => List.getElem?_set_ne (fun he => hj he.symm),
    rfl, rfl, rfl, rfl⟩ <;>
    simp [mergeTextBox, hsize]

/-- Witness for C5 at the concrete scene: changing the text of t1. -/
theorem updateTextBox_recomputes_size_witness :
    ∃ s', updateTextBox mwW "t1" { text := some "Hi!" } sceneW
      = .ok s' := by
  obtain ⟨tb, i, -, s', hok, -⟩ :=
    updateTextBox_recomputes_size mwW "t1" { text := some "Hi!" } sceneW
      (by decide) (by decide) (by decide)
  exact ⟨s', hok⟩

/-- C10: for an existing textBox id, when `updates` carries an
explicit `size` together with `text` or `fontSize`, the published
textBox's size equals `updates.size`: the caller-supplied size
overwrites the freshly recomputed one, because the shallow merge is
applied after the recompute. -/
theorem updateTextBox_explicit_size_wins
    (mw : String → TextStyle → Int) (id : String) (u : TextBoxUpdates)
    (s : Scene) (sz : Size)
    (hmem : id ∈ s.textBoxes.map (·.id))
    (hsize : u.size = some sz)
    (htouch : u.text.isSome = true ∨ u.fontSize.isSome = true) :
    ∃ tb i, getItemById (·.id) s.textBoxes id = some (tb, i) ∧
      ∃ s', updateTextBox mw id u s = .ok s' ∧
        ∃ tb', s'.textBoxes[i]? = some tb' ∧
          tb'.size = sz := by
  obtain ⟨tb, i, hget⟩ := getItemById_of_mem (·.id) s.textBoxes id hmem
  obtain ⟨hti, htid⟩ := getItemById_eq_some (·.id) s.textBoxes id tb i hget
  have hilen : i < s.textBoxes.length := (List.getElem?_eq_some_iff.mp hti).1
  have hcond : (u.text.isSome || u.fontSize.isSome) = true := by
    rcases htouch with h | h <;> simp [h]
  have hexp : updateTextBox mw id u s = .ok { s with
      textBoxes := s.textBoxes.set i (mergeTextBox { tb with
        size := ⟨mw (u.text.getD tb.text)
          ⟨u.fontSize.getD tb.fontSize, DEFAULT_FONT_FAMILY,
            TEXTBOX_DEFAULTS_fontWeight⟩, 1⟩ } u) } := by
    unfold updateTextBox
    rw [hget]
    dsimp only
    rw [if_pos hcond]
  exact ⟨tb, i, hget, _, hexp, _, List.getElem?_set_self hilen,
    by simp [mergeTextBox, hsize]⟩

/-- Witness for C10 at the concrete scene: an explicit size together
with a text change wins over the recompute. -/
theorem updateTextBox_explicit_size_wins_witness :
    ∃ s', updateTextBox mwW "t1"
      { text := some "Hi!", size := some ⟨99, 2⟩ } sceneW = .ok s' := by
  obtain ⟨tb, i, -, s', hok, -⟩ :=
    updateTextBox_explicit_size_wins mwW "t1"
      { text := some "Hi!", size := some ⟨99, 2⟩ } sceneW ⟨99, 2⟩
      (by decide) (by decide) (by decide)
  exact ⟨s', hok⟩

/-! ## C6: per-sequence id uniqueness -/

theorem set_getElem_self (l : List α) (i : Nat) (a : α)
    (h : l[i]? = some a) : l.set i a = l := by
  apply List.ext_getElem?
  intro j
  by_cases hj : i = j
  · subst hj
    rw [List.getElem?_set_self (List.getElem?_eq_some_iff.mp h).1, h]
  · rw [List.getElem?_set_ne hj]

theorem map_set_same_id (getId : β → String) (xs : List β) (i : Nat)
    (x y : β) (hx : xs[i]? = some x) (hid : getId y = getId x) :
    (xs.set i y).map getId = xs.map getId := by
  rw [List.map_set]
  apply set_getElem_self
  rw [List.getElem?_map, hx]
  simp [hid]

theorem nodup_map_append_fresh (getId : β → String) (xs : List β) (x : β)
    (h : (xs.map getId).Nodup) (hf : getId x ∉ xs.map getId) :
    ((xs ++ [x]).map getId).Nodup := by
  rw [List.map_append, List.nodup_append]
  refine ⟨h, List.nodup_singleton _, ?_⟩
  intro a ha hb
  rw [List.map_singleton, List.mem_singleton] at hb
  subst hb
  exact hf ha

theorem map_id_of_map_preserves (f : Connector → Connector)
    (hf : ∀ c, (f c).id = c.id) (cs : List Connector) :
    (cs.map f).map (fun c => c.id) = cs.map (fun c => c.id) := by
  rw [List.map_map]
  exact List.map_congr_left (fun c _ => hf c)

/-- C6 counterexample: per-sequence id uniqueness does NOT hold in
every published scene reachable from the initial empty scene — a
single `updateScene` call installs a caller-supplied node sequence
with a duplicated id, unvalidated. -/
theorem uniqueIds_not_reachability_invariant :
    ¬ uniqueIds (runActions cpW mwW validateW normalizeW
      [Action.updateScene
        { nodes := [nodeA, nodeA], connectors := [], rectangles := [] }]
      initialStore).scene := by
  decide

/-- Side conditions under which one action preserves per-sequence id
uniqueness: caller-supplied inputs must not themselves introduce a
duplicate id (fresh id for `create*`, duplicate-free sequences for
`updateScene` and for the normalized scene of `setScene`, no `id`
field inside `update*` merges); deletions need nothing. -/
def inputOk (normalize : α → Scene) : Action α → Scene → Prop
  | .setScene raw, _ => uniqueIds (normalize raw)
  | .updateScene u, _ =>
    (u.nodes.map (·.id)).Nodup ∧ (u.connectors.map (·.id)).Nodup ∧
    (u.rectangles.map (·.id)).Nodup
  | .createNode i, s => i.id ∉ s.nodes.map (·.id)
  | .createConnector i, s => i.id ∉ s.connectors.map (·.id)
  | .createRectangle i, s => i.id ∉ s.rectangles.map (·.id)
  | .createTextBox i, s => i.id ∉ s.textBoxes.map (·.id)
  | .updateNode _ u, _ => u.id = none
  | .updateConnector _ u, _ => u.id = none
  | .updateTextBox _ u, _ => u.id = none
  | .updateRectangle _ u, _ => u.id = none
  | .deleteNode _, _ => True
  | .deleteConnector _, _ => True
  | .deleteTextBox _, _ => True
  | .deleteRectangle _, _ => True

/-- C6 (amended): per-sequence id uniqueness is preserved by every
action whose caller-supplied input does not itself introduce a
duplicate id — deletions unconditionally, `update*` merges that carry
no `id` field, `create*` with an id fresh in its sequence, and
`updateScene`/`setScene` with duplicate-free supplied sequences.  It
is not an unconditional reachability invariant (see the
counterexample). -/
theorem uniqueIds_preserved_under_inputOk
    (cp : List Anchor → List Node → List Anchor → Path)
    (mw : String → TextStyle → Int)
    (validate : α → Bool) (normalize : α → Scene)
    (a : Action α) (st : Store)
    (hu : uniqueIds st.scene)
    (hok : inputOk normalize a st.scene) :
    uniqueIds (runAction cp mw validate normalize a st).scene := by
  obtain ⟨h1, h2, h3, h4, h5⟩ := hu
  cases a with
  | setScene raw =>
    by_cases hv : validate raw = true
    · simp only [runAction, applyAction, setScene, hv, if_true]
      exact hok
    · rw [Bool.not_eq_true] at hv
      simp only [runAction, applyAction, setScene, hv, Bool.false_eq_true,
        if_false]
      exact ⟨h1, h2, h3, h4, h5⟩
  | updateScene u =>
    obtain ⟨hn, hc, hr⟩ := hok
    exact ⟨h1, hn, hc, h4, hr⟩
  | createNode i =>
    exact ⟨h1, nodup_map_append_fresh _ _ _ h2 hok, h3, h4, h5⟩
  | updateNode id u =>
    cases hget : getItemById (·.id) st.scene.nodes id with
    | none =>
      simp only [runAction, applyAction, updateNode, hget]
      exact ⟨h1, h2, h3, h4, h5⟩
    | some p =>
      obtain ⟨nd, i⟩ := p
      obtain ⟨hni, hnid⟩ := getItemById_eq_some _ _ _ _ _ hget
      simp only [runAction, applyAction, updateNode, hget]
      refine ⟨h1, ?_, ?_, h4, h5⟩
      · show ((st.scene.nodes.set i (mergeNode nd u)).map (·.id)).Nodup
        rw [map_set_same_id (·.id) st.scene.nodes i nd (mergeNode nd u) hni
          (by change u.id = none at hok; simp [mergeNode, hok])]
        exact h2
      · show ((updateNodePathLoop cp (st.scene.nodes.set i (mergeNode nd u))
          id st.scene.connectors 0).map (·.id)).Nodup
        rw [updateNodePathLoop_eq_map,
          map_id_of_map_preserves _ (fun c => by
            by_cases hb : c.anchors.any (anchorBoundTo id) <;> simp [hb])]
        exact h3
  | deleteNode id =>
    cases hget : getItemById (·.id) st.scene.nodes id with
    | none =>
      simp only [runAction, applyAction, deleteNode, hget]
      exact ⟨h1, h2, h3, h4, h5⟩
    | some p =>
      obtain ⟨nd, i⟩ := p
      simp only [runAction, applyAction, deleteNode, hget]
      exact ⟨h1,
        List.Nodup.sublist
          (List.Sublist.map _ (List.eraseIdx_sublist _ _)) h2,
        List.Nodup.sublist
          (List.Sublist.map _ (List.filter_sublist _)) h3, h4, h5⟩
  | createConnector i =>
    exact ⟨h1, h2, nodup_map_append_fresh _ _ _ h3 hok, h4, h5⟩
  | updateConnector id u =>
    cases hget : getItemById (·.id) st.scene.connectors id with
    | none =>
      simp only [runAction, applyAction, updateConnector, hget]
      exact ⟨h1, h2, h3, h4, h5⟩
    | some p =>
      obtain ⟨cn, i⟩ := p
      obtain ⟨hci, hcid⟩ := getItemById_eq_some _ _ _ _ _ hget
      simp only [runAction, applyAction, updateConnector, hget]
      refine ⟨h1, h2, ?_, h4, h5⟩
      show ((st.scene.connectors.set i (mergeConnector cn u)).map
        (·.id)).Nodup
      rw [map_set_same_id (·.id) st.scene.connectors i cn
        (mergeConnector cn u) hci (by change u.id = none at hok; simp [mergeConnector, hok])]
      exact h3
  | deleteConnector id =>
    cases hget : getItemById (·.id) st.scene.connectors id with
    | none =>
      simp only [runAction, applyAction, deleteConnector, hget]
      exact ⟨h1, h2, h3, h4, h5⟩
    | some p =>
      obtain ⟨cn, i⟩ := p
      simp only [runAction, applyAction, deleteConnector, hget]
      exact ⟨h1, h2,
        List.Nodup.sublist
          (List.Sublist.map _ (List.eraseIdx_sublist _ _)) h3, h4, h5⟩
  | createRectangle i =>
    exact ⟨h1, h2, h3, h4, nodup_map_append_fresh _ _ _ h5 hok⟩
  | createTextBox i =>
    exact ⟨h1, h2, h3, nodup_map_append_fresh _ _ _ h4 hok, h5⟩
  | updateTextBox id u =>
    cases hget : getItemById (·.id) st.scene.textBoxes id with
    | none =>
      simp only [runAction, applyAction, updateTextBox, hget]
      exact ⟨h1, h2, h3, h4, h5⟩
    | some p =>
      obtain ⟨tb, i⟩ := p
      obtain ⟨hti, htid⟩ := getItemById_eq_some _ _ _ _ _ hget
      simp only [runAction, applyAction, updateTextBox, hget]
      refine ⟨h1, h2, h3, ?_, h5⟩
      show ((st.scene.textBoxes.set i (mergeTextBox _ u)).map
        (·.id)).Nodup
      rw [map_set_same_id (·.id) st.scene.textBoxes i tb _ hti (by
        change u.id = none at hok
        by_cases hc : (u.text.isSome || u.fontSize.isSome) = true <;>
          simp [hc, mergeTextBox, hok])]
      exact h4
  | deleteTextBox id =>
    cases hget : getItemById (·.id) st.scene.textBoxes id with
    | none =>
      simp only [runAction, applyAction, deleteTextBox, hget]
      exact ⟨h1, h2, h3, h4, h5⟩
    | some p =>
      obtain ⟨tb, i⟩ := p
      simp only [runAction, applyAction, deleteTextBox, hget]
      exact ⟨h1, h2, h3,
        List.Nodup.sublist
          (List.Sublist.map _ (List.eraseIdx_sublist _ _)) h4, h5⟩
  | updateRectangle id u =>
    cases hget : getItemById (·.id) st.scene.rectangles id with
    | none =>
      simp only [runAction, applyAction, updateRectangle, hget]
      exact ⟨h1, h2, h3, h4, h5⟩
    | some p =>
      obtain ⟨rc, i⟩ := p
      obtain ⟨hri, hrid⟩ := getItemById_eq_some _ _ _ _ _ hget
      simp only [runAction, applyAction, updateRectangle, hget]
      refine ⟨h1, h2, h3, h4, ?_⟩
      show ((st.scene.rectangles.set i (mergeRectangle rc u)).map
        (·.id)).Nodup
      rw [map_set_same_id (·.id) st.scene.rectangles i rc
        (mergeRectangle rc u) hri (by change u.id = none at hok; simp [mergeRectangle, hok])]
      exact h5
  | deleteRectangle id =>
    cases hget : getItemById (·.id) st.scene.rectangles id with
    | none =>
      simp only [runAction, applyAction, deleteRectangle, hget]
      exact ⟨h1, h2, h3, h4, h5⟩
    | some p =>
      obtain ⟨rc, i⟩ := p
      simp only [runAction, applyAction, deleteRectangle, hget]
      exact ⟨h1, h2, h3, h4,
        List.Nodup.sublist
          (List.Sublist.map _ (List.eraseIdx_sublist _ _)) h5⟩

/-- Witness for the amended C6 at a concrete store and action. -/
theorem uniqueIds_preserved_under_inputOk_witness :
    uniqueIds (runAction cpW mwW validateW normalizeW
      (Action.deleteNode "n1")
      { scene := sceneW, publishCount := 0 }).scene :=
  uniqueIds_preserved_under_inputOk cpW mwW validateW normalizeW
    (Action.deleteNode "n1") { scene := sceneW, publishCount := 0 }
    (by decide) trivial

end Isoflow
